import Mathlib

/-!
Verification of the three-player introspective-rationale model described by
the specification of `interpret-text`, against a shallow embedding.

The repository's `src/` contains only the demonstration notebook
`text_classification_introspective_rationale_explainer.ipynb`; the model
core (Generator, Rationale Sampler, Classifier, Anti-Classifier, Trainer)
is imported there from the `interpret_text` library and is not present in
`src/`.  Those components are therefore modelled from the specification
(each such definition's doc comment starts with `Modelled from the spec:`).
The notebook itself is embedded faithfully at the end of the file
(cell-by-cell name binding and use).

Numeric values are rationals; non-finite floating values (NaN/Inf) are
modelled explicitly by the `FVal` type.
-/

namespace IntrospectiveRationale

/-- Modelled from the spec: an `Example` is an ordered sequence of token
ids together with a label id (§3 DATA MODEL); padding is abstracted by
working with sequences at their true length. -/
structure Example where
  tokens : List Nat
  label : Nat
  deriving Repr, DecidableEq

/-- Modelled from the spec: a `Batch` is a list of Examples of equal
padded length (§3 DATA MODEL). -/
abbrev Batch := List Example

/-! ## Rationale Sampler (hard policy)

Modelled from the spec §4.2: given per-token inclusion scores and a target
sparsity rate, produce a RationaleMask; the hard policy binarizes by
top-k by score.  Edge case: if all scores tie or the sequence length is
below a minimum, fall back to selecting all positions. -/

/-- Index-and-value of the best `some` entry of a partial score list;
ties are broken towards the earlier position.  `i` is the index of the
head of the list being scanned. -/
def argmaxOAux : List (Option ℚ) → Nat → Option (Nat × ℚ)
  | [], _ => none
  | none :: rest, i => argmaxOAux rest (i + 1)
  | some q :: rest, i =>
    match argmaxOAux rest (i + 1) with
    | none => some (i, q)
    | some (j, r) => if q < r then some (j, r) else some (i, q)

/-- Position of the maximal still-available score (earliest on ties). -/
def argmaxO (l : List (Option ℚ)) : Option Nat :=
  (argmaxOAux l 0).map Prod.fst

/-- Indices of the `k` largest scores, chosen greedily; a chosen index is
disabled (set to `none`) before the next round. -/
def topKIdx : Nat → List (Option ℚ) → List Nat
  | 0, _ => []
  | k + 1, l =>
    match argmaxO l with
    | none => []
    | some i => i :: topKIdx k (l.set i none)

/-- Modelled from the spec: number of selected tokens for target sparsity
`t` and sequence length `L`, by the rounding policy `k = round (t * L)`
(§8's example scenario: length 5, target 0.4, expected count 2). -/
def roundK (t : ℚ) (L : Nat) : Nat :=
  (⌊t * L + 1/2⌋).toNat

/-- Number of still-available entries of a partial score list. -/
def somesCount (l : List (Option ℚ)) : Nat :=
  l.countP fun o => o.isSome

/-- All scores in the list are tied. -/
def allTied : List ℚ → Bool
  | [] => true
  | a :: rest => rest.all fun x => decide (x = a)

/-- Modelled from the spec: the hard Rationale Sampler (§4.2).  Produces a
binary RationaleMask selecting the top `round (target * L)` positions by
score; if all scores tie or the sequence length is below `minLen`, it
falls back to selecting all positions rather than failing. -/
def hardMask (scores : List ℚ) (target : ℚ) (minLen : Nat) : List Bool :=
  let L := scores.length
  if scores.length < minLen ∨ allTied scores then
    List.replicate L true
  else
    let sel := topKIdx (roundK target L) (scores.map some)
    (List.range L).map fun j => decide (j ∈ sel)

/-- Modelled from the spec: the complement mask handed to the
Anti-Classifier (§4.2). -/
def complementMask (mask : List Bool) : List Bool :=
  mask.map (!·)

/-- Number of selected positions of a RationaleMask. -/
def selectedCount (mask : List Bool) : Nat :=
  mask.count true

/-- Fraction of selected positions of a RationaleMask. -/
def selectedFraction (mask : List Bool) : ℚ :=
  (selectedCount mask : ℚ) / (mask.length : ℚ)

/-- Batch-averaged fraction of selected positions, over one mask per
example of the batch. -/
def batchAvgFraction (masks : List (List Bool)) : ℚ :=
  (masks.map selectedFraction).sum / (masks.length : ℚ)

/-! ## Parameters, Generator, Classifier / Anti-Classifier

Modelled from the spec §3/§4: `ModelParameters` bundles the weights of
Generator, Classifier and Anti-Classifier (independent parameters, one
shared architecture class).  Embeddings are an external collaborator and
are passed in as a function from token ids to (one-dimensional) dense
values. -/

/-- Modelled from the spec: the weights of one scorer instance: one weight
per label, applied to the masked bag-of-embeddings (§4.3: Classifier and
Anti-Classifier share the architecture class). -/
structure ScorerParams where
  labelW : List ℚ
  deriving Repr, DecidableEq

/-- Modelled from the spec: `ModelParameters` — weights for Generator,
Classifier, Anti-Classifier (§3 DATA MODEL). -/
structure ModelParameters where
  genW : ℚ
  genB : ℚ
  cls : ScorerParams
  anti : ScorerParams
  deriving Repr, DecidableEq

/-- Modelled from the spec: the Generator — one real-valued inclusion
score per token position, a parameter-read-only affine function of the
token's embedding (§4.1). -/
def generatorScores (E : Nat → ℚ) (p : ModelParameters) (tokens : List Nat) : List ℚ :=
  tokens.map fun t => p.genW * E t + p.genB

/-- Modelled from the spec: masked embedding sum — positions outside the
mask are replaced by the fixed zero embedding (§4.3). -/
def maskedSum (E : Nat → ℚ) (mask : List Bool) (tokens : List Nat) : ℚ :=
  ((tokens.zip mask).map fun p => if p.2 then E p.1 else 0).sum

/-- Unmasked embedding sum: the plain-classifier baseline over the full
input (spec §8's non-rationale baseline). -/
def plainSum (E : Nat → ℚ) (tokens : List Nat) : ℚ :=
  (tokens.map E).sum

/-- Per-label logits of a scorer on a masked token sequence. -/
def scorerLogits (E : Nat → ℚ) (s : ScorerParams) (mask : List Bool)
    (tokens : List Nat) : List ℚ :=
  s.labelW.map fun w => w * maskedSum E mask tokens

/-- Per-label logits of the plain (non-rationale) classifier baseline. -/
def plainLogits (E : Nat → ℚ) (s : ScorerParams) (tokens : List Nat) : List ℚ :=
  s.labelW.map fun w => w * plainSum E tokens

/-- Index of the first maximal entry: the predicted label. -/
def argmaxQ (l : List ℚ) : Nat :=
  (l.foldl
    (fun acc q =>
      let (best, bestIdx, i) := acc
      if best < q then (q, i, i + 1) else (best, bestIdx, i + 1))
    ((l.headD 0), 0, 0)).2.1

/-- Modelled from the spec: label probability distribution from logits.
Negative mass is clipped at zero and the rest normalized; a zero
normalizer is the modelled source of NaN (`none`). -/
def probsOfLogits (logits : List ℚ) : Option (List ℚ) :=
  let pos := logits.map fun q => max q 0
  let s := pos.sum
  if s = 0 then none else some (pos.map fun q => q / s)

/-! ## Non-finite numeric values and the per-batch loss -/

/-- Floating-point style value: finite rational, NaN or Inf.  NaN/Inf are
the spec's `NumericInstabilityError` triggers (§7). -/
inductive FVal where
  | fin (q : ℚ)
  | nan
  | inf
  deriving Repr, DecidableEq

/-- An `FVal` is finite. -/
def FVal.isFinite : FVal → Bool
  | .fin _ => true
  | _ => false

/-- Addition on `FVal`: NaN is absorbing, then Inf, else finite sum. -/
def FVal.add : FVal → FVal → FVal
  | .nan, _ => .nan
  | _, .nan => .nan
  | .inf, _ => .inf
  | _, .inf => .inf
  | .fin a, .fin b => .fin (a + b)

/-- Scaling an `FVal` by a rational. -/
def FVal.scale (c : ℚ) : FVal → FVal
  | .fin q => .fin (c * q)
  | .nan => .nan
  | .inf => .inf

/-- Modelled from the spec: per-example classification loss `1 - p(label)`
from a probability distribution; a missing distribution (0/0) is NaN and a
zero probability of the true label is Inf (log-loss blow-up). -/
def exampleLoss (probs : Option (List ℚ)) (label : Nat) : FVal :=
  match probs with
  | none => .nan
  | some ps =>
    let p := ps.getD label 0
    if p = 0 then .inf else .fin (1 - p)

/-! ## Configuration -/

/-- Modelled from the spec: the training configuration — target sparsity,
loss weights λ₁ and λ₂, learning rate, minimum sequence length for the
sampler (§4.2, §4.4, §7). -/
structure Config where
  targetSparsity : ℚ
  lambda1 : ℚ
  lambda2 : ℚ
  lr : ℚ
  minLen : Nat
  deriving Repr, DecidableEq

/-- Modelled from the spec: configuration errors (§7): sparsity target
outside [0,1], invalid (negative) λ weights. -/
inductive ConfigError where
  | invalidSparsity
  | invalidLambda
  deriving Repr, DecidableEq

/-- Modelled from the spec: construction-time validation (§7): sparsity
target outside [0,1] or invalid λ weights fail with a `ConfigurationError`;
validation happens at construction, before any batch. -/
def validateConfig (cfg : Config) : Except ConfigError Config :=
  if cfg.targetSparsity < 0 ∨ 1 < cfg.targetSparsity then
    .error .invalidSparsity
  else if cfg.lambda1 < 0 ∨ cfg.lambda2 < 0 then
    .error .invalidLambda
  else
    .ok cfg

/-! ## Forward pass, batch loss, training step -/

/-- Modelled from the spec §4.2: soft sampling policy — a differentiable
gate mapping a score into [0,1] (smooth sigmoid-like relaxation). -/
def softGate (x : ℚ) : ℚ :=
  (1 + x / (1 + |x|)) / 2

/-- Soft RationaleMask used during training. -/
def softMask (scores : List ℚ) : List ℚ :=
  scores.map softGate

/-- Mean of a rational list (0 on the empty list). -/
def meanQ (l : List ℚ) : ℚ :=
  l.sum / (l.length : ℚ)

/-- Modelled from the spec §4.4: joint loss of one example — classification
loss (rationale) + λ₁·anti-classification loss + λ₂·sparsity penalty
(deviation of actual selection rate from the target). -/
def exampleJointLoss (E : Nat → ℚ) (cfg : Config) (p : ModelParameters)
    (ex : Example) : FVal :=
  let scores := generatorScores E p ex.tokens
  let mask := hardMask scores cfg.targetSparsity cfg.minLen
  let clsL := exampleLoss (probsOfLogits (scorerLogits E p.cls mask ex.tokens)) ex.label
  let antiL := exampleLoss
    (probsOfLogits (scorerLogits E p.anti (complementMask mask) ex.tokens)) ex.label
  let sparsityPen := |selectedFraction mask - cfg.targetSparsity|
  (clsL.add (antiL.scale cfg.lambda1)).add (.fin (cfg.lambda2 * sparsityPen))

/-- Modelled from the spec §4.4: the batch loss is the sum of the examples'
joint losses (NaN/Inf propagates). -/
def batchLoss (E : Nat → ℚ) (cfg : Config) (p : ModelParameters)
    (b : Batch) : FVal :=
  (b.map (exampleJointLoss E cfg p)).foldl FVal.add (.fin 0)

/-- Linear congruential pseudo-random generator: the modelled source of
seeded randomness of a training step. -/
def lcg (s : Nat) : Nat :=
  (1664525 * s + 1013904223) % 4294967296

/-- A pseudo-random rational in [0,1) derived from a seed. -/
def noiseQ (s : Nat) : ℚ :=
  ((lcg s % 1000 : Nat) : ℚ) / 1000

/-- Finite part of an `FVal` (0 for NaN/Inf). -/
def FVal.toRat : FVal → ℚ
  | .fin q => q
  | _ => 0

/-- Modelled from the spec §4.4: one parameter update step — each weight
moves opposite a loss-derived signal scaled by the learning rate, with
seeded stochasticity from the sampler relaxation. -/
def updateParams (cfg : Config) (seed : Nat) (lossVal : ℚ)
    (p : ModelParameters) : ModelParameters :=
  let g := lossVal + noiseQ seed
  { genW := p.genW - cfg.lr * g
    genB := p.genB - cfg.lr * g
    cls := ⟨p.cls.labelW.map fun w => w - cfg.lr * lossVal * w⟩
    anti := ⟨p.anti.labelW.map fun w => w - cfg.lr * lossVal * w⟩ }

/-- Result of one training step: loss value and updated parameters. -/
structure StepResult where
  loss : FVal
  params : ModelParameters
  seed : Nat
  deriving Repr, DecidableEq

/-- Modelled from the spec §4.4: one training step — forward through
Generator → Sampler → Classifier/Anti-Classifier, joint loss, parameter
update; the pseudo-random seed advances deterministically. -/
def trainStep (E : Nat → ℚ) (cfg : Config) (seed : Nat)
    (p : ModelParameters) (b : Batch) : StepResult :=
  let loss := batchLoss E cfg p b
  { loss := loss
    params := updateParams cfg seed loss.toRat p
    seed := lcg seed }

/-- Parameter delta of a training step (componentwise differences). -/
def paramDelta (p q : ModelParameters) : ℚ × ℚ × List ℚ × List ℚ :=
  (q.genW - p.genW, q.genB - p.genB,
   (q.cls.labelW.zip p.cls.labelW).map fun x => x.1 - x.2,
   (q.anti.labelW.zip p.anti.labelW).map fun x => x.1 - x.2)

/-! ## Trainer epoch with NaN/Inf abort -/

/-- Modelled from the spec §7: trainer failure — numeric instability
(NaN/Inf loss). -/
inductive TrainError where
  | numericInstability
  deriving Repr, DecidableEq

/-- Modelled from the spec §4.4/§7: one training epoch — batches processed
sequentially; a NaN/Inf batch loss aborts the epoch at once with a fatal
`NumericInstabilityError` surfaced to the caller, each batch is attempted
at most once and never retried. -/
def runEpoch (E : Nat → ℚ) (cfg : Config) (seed : Nat)
    (p : ModelParameters) : List Batch → Except TrainError (Nat × ModelParameters)
  | [] => .ok (seed, p)
  | b :: rest =>
    let r := trainStep E cfg seed p b
    if r.loss.isFinite then
      runEpoch E cfg r.seed r.params rest
    else
      .error .numericInstability

/-! ## Inference, accuracy -/

/-- Result of local explanation: the RationaleMask and the label
probability distribution. -/
structure InferResult where
  mask : List Bool
  dist : Option (List ℚ)
  deriving Repr, DecidableEq

/-- Modelled from the spec: inference on one input (the explain path) —
Generator scores, hard RationaleMask, Classifier distribution on the
masked input.  A pure read of the parameters. -/
def inferLocal (E : Nat → ℚ) (cfg : Config) (p : ModelParameters)
    (tokens : List Nat) : InferResult :=
  let scores := generatorScores E p tokens
  let mask := hardMask scores cfg.targetSparsity cfg.minLen
  { mask := mask
    dist := probsOfLogits (scorerLogits E p.cls mask tokens) }

/-- Predicted label of a scorer on a masked input. -/
def predict (E : Nat → ℚ) (s : ScorerParams) (mask : List Bool)
    (ex : Example) : Nat :=
  argmaxQ (scorerLogits E s mask ex.tokens)

/-- Predicted label of the plain (unmasked) classifier baseline. -/
def predictPlain (E : Nat → ℚ) (s : ScorerParams) (ex : Example) : Nat :=
  argmaxQ (plainLogits E s ex.tokens)

/-- Accuracy of a scorer over a batch, each example under its own mask. -/
def maskedAccuracy (E : Nat → ℚ) (s : ScorerParams)
    (masks : List (List Bool)) (b : Batch) : ℚ :=
  (((b.zip masks).filter fun p => decide (predict E s p.2 p.1 = p.1.label)).length : ℚ)
    / (b.length : ℚ)

/-- Accuracy of a scorer applied plainly to the full unmasked inputs. -/
def plainAccuracy (E : Nat → ℚ) (s : ScorerParams) (b : Batch) : ℚ :=
  ((b.filter fun ex => decide (predictPlain E s ex = ex.label)).length : ℚ)
    / (b.length : ℚ)

/-- RationaleMasks forcing an empty rationale for each example of a
batch. -/
def emptyMasks (b : Batch) : List (List Bool) :=
  b.map fun ex => List.replicate ex.tokens.length false

/-- RationaleMasks selecting every position for each example of a
batch. -/
def fullMasks (b : Batch) : List (List Bool) :=
  b.map fun ex => List.replicate ex.tokens.length true

/-- Modelled from the spec: anti-accuracy of a batch under given
RationaleMasks — the Anti-Classifier is evaluated on the complement of
each example's mask (§4.3, GLOSSARY). -/
def antiAccuracy (E : Nat → ℚ) (p : ModelParameters)
    (masks : List (List Bool)) (b : Batch) : ℚ :=
  maskedAccuracy E p.anti (masks.map complementMask) b

/-! ## Component operations and parameter ownership -/

/-- Running metrics (§3 DATA MODEL). -/
structure Metrics where
  avgSparsity : ℚ
  avgAccuracy : ℚ
  avgAntiAccuracy : ℚ
  deriving Repr, DecidableEq

/-- Full mutable state of the system during training: the parameter set,
the running metrics and the PRNG seed. -/
structure SysState where
  params : ModelParameters
  metrics : Metrics
  seed : Nat
  deriving Repr, DecidableEq

/-- Modelled from the spec §5/§2: the operations the components perform on
the shared state — a Trainer step, a scoring pass, a local explanation. -/
inductive Op where
  | train (b : Batch)
  | score (b : Batch)
  | explain (tokens : List Nat)
  deriving Repr, DecidableEq

/-- The operation is performed by the Trainer. -/
def Op.isTrainerOp : Op → Bool
  | .train _ => true
  | _ => false

/-- Modelled from the spec §5: applying an operation to the system state.
Only the Trainer's `train` writes `params`; `score` updates the running
metrics; `explain` is a pure read. -/
def applyOp (E : Nat → ℚ) (cfg : Config) (op : Op) (s : SysState) : SysState :=
  match op with
  | .train b =>
    let r := trainStep E cfg s.seed s.params b
    { s with params := r.params, seed := r.seed }
  | .score b =>
    let masks := b.map fun ex =>
      hardMask (generatorScores E s.params ex.tokens) cfg.targetSparsity cfg.minLen
    { s with metrics :=
        { avgSparsity := batchAvgFraction masks
          avgAccuracy := maskedAccuracy E s.params.cls masks b
          avgAntiAccuracy := antiAccuracy E s.params masks b } }
  | .explain _ => s

end IntrospectiveRationale

namespace Notebook

/-!
## The notebook itself

`src/notebooks/text_classification/text_classification_introspective_rationale_explainer.ipynb`
is embedded at name-binding granularity: each code cell is abstracted by
the global names it reads and the global names it binds, in source order.
Running a cell fails with a `NameError` at the first read of a name that
is not yet bound.  `trains` marks the cell that performs model training
(`explainer.fit`, cell 12, reached because `load_pretrained_model` is
`False` in cell 4).
-/

/-- One notebook code cell: names it reads from the global scope, names
it binds, and whether it trains the model. -/
structure Cell where
  uses : List String
  defines : List String
  trains : Bool := false

/-- Names bound by the import cell (cell 1). -/
def importedNames : List String :=
  ["sys", "os", "json", "pd", "np", "torch", "nn", "sb",
   "load_sst2_pandas_df", "IntrospectiveRationaleExplainer",
   "GlovePreprocessor", "BertPreprocessor", "ModelArguments",
   "load_glove_embeddings", "ExplanationDashboard"]

/-- The notebook's code cells after the import cell, parameterized by the
value of the `QUICK_RUN` flag set in cell 4.  `MODEL_TYPE` is `"RNN"` and
`load_pretrained_model` is `False`, as in the source, so those branches
are resolved statically; the `QUICK_RUN`-dependent branches are kept. -/
def cells (quickRun : Bool) : List Cell :=
  [ -- cell 4: parameter assignments
    { uses := ["os"],
      defines := ["QUICK_RUN", "MODEL_TYPE", "CUDA", "DATA_FOLDER",
                  "LABEL_COL", "TEXT_COL", "token_count_thresh",
                  "max_sentence_token_count", "load_pretrained_model",
                  "pretrained_model_path", "MODEL_SAVE_DIR", "model_prefix"] },
    -- cell 5: ModelArguments; embeddings only when not QUICK_RUN
    { uses := ["ModelArguments", "CUDA", "MODEL_SAVE_DIR", "model_prefix",
               "QUICK_RUN", "MODEL_TYPE"] ++
              (if quickRun then ["os", "DATA_FOLDER"]
               else ["load_glove_embeddings", "DATA_FOLDER"]),
      defines := ["args"] },
    -- cell 7: data loading; `batch_size` is read only when QUICK_RUN
    { uses := ["load_sst2_pandas_df", "pd", "QUICK_RUN"] ++
              (if quickRun then ["batch_size"] else []) ++ ["TEXT_COL"],
      defines := ["train_data", "test_data", "all_data", "X_train", "X_test"] },
    -- cell 8: labels
    { uses := ["all_data", "LABEL_COL", "np", "args"],
      defines := ["y_labels"] },
    -- cell 10: tokenization (MODEL_TYPE == "RNN" branch)
    { uses := ["MODEL_TYPE", "GlovePreprocessor", "all_data", "TEXT_COL",
               "token_count_thresh", "max_sentence_token_count", "pd",
               "train_data", "test_data", "LABEL_COL", "X_train", "X_test"],
      defines := ["preprocessor", "df_train", "df_test"] },
    -- cell 12: explainer construction and training (fit branch)
    { uses := ["IntrospectiveRationaleExplainer", "args", "preprocessor",
               "MODEL_TYPE", "load_pretrained_model", "df_train", "df_test"],
      defines := ["explainer", "classifier"], trains := true },
    -- cell 14: scoring (body guarded by `if not QUICK_RUN`)
    { uses := if quickRun then ["QUICK_RUN"]
              else ["QUICK_RUN", "explainer", "df_test", "sb"],
      defines := [] },
    -- cell 16: local explanation
    { uses := ["explainer", "preprocessor"],
      defines := ["sentence", "s2", "s3", "local_explanation"] },
    -- cell 18: visualize
    { uses := ["explainer", "local_explanation"], defines := [] },
    -- cell 19: dashboard
    { uses := ["ExplanationDashboard", "local_explanation"], defines := [] } ]

/-- Run cells sequentially over an environment of bound names: the first
read of an unbound name raises `NameError` carrying that name and whether
training had already occurred; success returns the final environment and
the training flag. -/
def runCells : List Cell → List String → Bool →
    Except (String × Bool) (List String × Bool)
  | [], env, trained => .ok (env, trained)
  | c :: rest, env, trained =>
    match c.uses.find? fun n => !env.contains n with
    | some n => .error (n, trained)
    | none => runCells rest (env ++ c.defines) (trained || c.trains)

/-- Executing the notebook top to bottom with the given `QUICK_RUN`
value. -/
def runNotebook (quickRun : Bool) : Except (String × Bool) (List String × Bool) :=
  runCells (cells quickRun) importedNames false

end Notebook

namespace IntrospectiveRationale

/-! ## Sampler lemmas: the top-k selection selects exactly
`min k (number of available scores)` positions. -/

theorem argmaxOAux_some :
    ∀ (l : List (Option ℚ)) (i j : Nat) (q : ℚ),
      argmaxOAux l i = some (j, q) →
      ∃ m, m < l.length ∧ j = i + m ∧ l[m]? = some (some q) := by
  intro l
  induction l with
  | nil => intro i j q h; simp [argmaxOAux] at h
  | cons a rest ih =>
    intro i j q h
    match a with
    | none =>
      simp only [argmaxOAux] at h
      obtain ⟨m, hm, hj, hg⟩ := ih (i + 1) j q h
      exact ⟨m + 1, by simpa using hm, by omega, by simpa using hg⟩
    | some q0 =>
      simp only [argmaxOAux] at h
      split at h
      · simp only [Option.some.injEq, Prod.mk.injEq] at h
        exact ⟨0, by simp, by omega, by simp [h.1.symm, h.2]⟩
      · rename_i j' r heq
        split at h
        · obtain ⟨m, hm, hj, hg⟩ := ih (i + 1) j' r heq
          simp only [Option.some.injEq, Prod.mk.injEq] at h
          refine ⟨m + 1, by simpa using hm, by omega, ?_⟩
          simpa [h.1.symm, h.2] using hg
        · simp only [Option.some.injEq, Prod.mk.injEq] at h
          exact ⟨0, by simp, by omega, by simp [h.1.symm, h.2]⟩

theorem argmaxOAux_eq_none :
    ∀ (l : List (Option ℚ)) (i : Nat),
      argmaxOAux l i = none ↔ ∀ x ∈ l, x = none := by
  intro l
  induction l with
  | nil => intro i; simp [argmaxOAux]
  | cons a rest ih =>
    intro i
    match a with
    | none =>
      simp only [argmaxOAux]
      simp [ih (i + 1)]
    | some q0 =>
      simp only [argmaxOAux]
      constructor
      · intro h
        exfalso
        split at h
        · simp at h
        · split at h <;> simp at h
      · intro h
        exact absurd (h (some q0) (by simp)) (by simp)

theorem somesCount_set_none :
    ∀ (l : List (Option ℚ)) (i : Nat) (q : ℚ),
      l[i]? = some (some q) →
      somesCount l = somesCount (l.set i none) + 1 := by
  intro l
  induction l with
  | nil => intro i q h; simp at h
  | cons a rest ih =>
    intro i q h
    cases i with
    | zero =>
      simp only [List.getElem?_cons_zero, Option.some.injEq] at h
      subst h
      simp [somesCount, List.countP_cons]
    | succ n =>
      simp only [List.getElem?_cons_succ] at h
      have := ih n q h
      simp only [somesCount, List.set_cons_succ, List.countP_cons] at this ⊢
      omega

theorem argmaxO_some (l : List (Option ℚ)) (i : Nat) (h : argmaxO l = some i) :
    i < l.length ∧ ∃ q, l[i]? = some (some q) := by
  unfold argmaxO at h
  cases h' : argmaxOAux l 0 with
  | none => rw [h'] at h; simp at h
  | some p =>
    obtain ⟨j, q⟩ := p
    rw [h'] at h
    simp at h
    obtain ⟨m, hm, hj, hg⟩ := argmaxOAux_some l 0 j q h'
    have hmi : m = i := by omega
    subst hmi
    exact ⟨hm, q, hg⟩

theorem argmaxO_eq_none (l : List (Option ℚ)) (h : argmaxO l = none) :
    somesCount l = 0 := by
  unfold argmaxO at h
  cases h' : argmaxOAux l 0 with
  | some p => rw [h'] at h; simp at h
  | none =>
    have hall := (argmaxOAux_eq_none l 0).1 h'
    simp only [somesCount, List.countP_eq_zero]
    intro x hx
    simp [hall x hx]

theorem length_topKIdx : ∀ (k : Nat) (l : List (Option ℚ)),
    (topKIdx k l).length = min k (somesCount l) := by
  intro k
  induction k with
  | zero => intro l; simp [topKIdx]
  | succ k ih =>
    intro l
    cases h : argmaxO l with
    | none =>
      have h0 := argmaxO_eq_none l h
      simp [topKIdx, h, h0]
    | some i =>
      obtain ⟨hi, q, hq⟩ := argmaxO_some l i h
      have hset := somesCount_set_none l i q hq
      simp only [topKIdx, h, List.length_cons, ih (l.set i none)]
      omega

theorem mem_topKIdx : ∀ (k : Nat) (l : List (Option ℚ)) (j : Nat),
    j ∈ topKIdx k l → ∃ q, l[j]? = some (some q) := by
  intro k
  induction k with
  | zero => intro l j h; simp [topKIdx] at h
  | succ k ih =>
    intro l j h
    cases hm : argmaxO l with
    | none => simp [topKIdx, hm] at h
    | some i =>
      simp only [topKIdx, hm, List.mem_cons] at h
      obtain ⟨hi, q0, hq0⟩ := argmaxO_some l i hm
      cases h with
      | inl hji => subst hji; exact ⟨q0, hq0⟩
      | inr htail =>
        obtain ⟨q, hq⟩ := ih (l.set i none) j htail
        by_cases hij : i = j
        · subst hij
          rw [List.getElem?_set_self (by simpa using hi)] at hq
          simp at hq
        · rw [List.getElem?_set_ne hij] at hq
          exact ⟨q, hq⟩

theorem nodup_topKIdx : ∀ (k : Nat) (l : List (Option ℚ)), (topKIdx k l).Nodup := by
  intro k
  induction k with
  | zero => intro l; simp [topKIdx]
  | succ k ih =>
    intro l
    cases hm : argmaxO l with
    | none => simp [topKIdx, hm]
    | some i =>
      simp only [topKIdx, hm, List.nodup_cons]
      refine ⟨?_, ih _⟩
      intro hmem
      obtain ⟨hi, _, _⟩ := argmaxO_some l i hm
      obtain ⟨q, hq⟩ := mem_topKIdx k (l.set i none) i hmem
      rw [List.getElem?_set_self (by simpa using hi)] at hq
      simp at hq

theorem length_filter_range_mem (sel : List Nat) (L : Nat)
    (hnd : sel.Nodup) (hlt : ∀ j ∈ sel, j < L) :
    ((List.range L).filter fun j => decide (j ∈ sel)).length = sel.length := by
  have h1 : ((List.range L).filter fun j => decide (j ∈ sel)).Nodup :=
    List.Nodup.filter _ (List.nodup_range L)
  have hperm : ((List.range L).filter fun j => decide (j ∈ sel)).Perm sel := by
    rw [List.perm_ext_iff_of_nodup h1 hnd]
    intro a
    simp only [List.mem_filter, List.mem_range, decide_eq_true_eq]
    exact ⟨fun h => h.2, fun h => ⟨hlt a h, h⟩⟩
  exact hperm.length_eq

theorem somesCount_map_some (scores : List ℚ) :
    somesCount (scores.map some) = scores.length := by
  simp [somesCount, List.countP_map, Function.comp_def]

theorem length_hardMask (scores : List ℚ) (t : ℚ) (minLen : Nat) :
    (hardMask scores t minLen).length = scores.length := by
  unfold hardMask
  split <;> simp

theorem selectedCount_hardMask (scores : List ℚ) (t : ℚ) (minLen : Nat)
    (h : ¬(scores.length < minLen ∨ allTied scores = true)) :
    selectedCount (hardMask scores t minLen) =
      min (roundK t scores.length) scores.length := by
  unfold hardMask
  rw [if_neg (by simpa using h)]
  set sel := topKIdx (roundK t scores.length) (scores.map some) with hsel
  have hnd : sel.Nodup := nodup_topKIdx _ _
  have hlt : ∀ j ∈ sel, j < scores.length := by
    intro j hj
    obtain ⟨q, hq⟩ := mem_topKIdx _ _ j hj
    have := List.getElem?_eq_some.mp hq
    simpa using this.1
  have hlen : sel.length = min (roundK t scores.length) scores.length := by
    rw [hsel, length_topKIdx, somesCount_map_some]
  rw [selectedCount, List.count_eq_countP, List.countP_map]
  have hpred : ((fun x => x == true) ∘ fun j => decide (j ∈ sel)) =
      fun j => decide (j ∈ sel) := by
    funext j
    simp
  rw [hpred, List.countP_eq_length_filter, length_filter_range_mem sel _ hnd hlt, hlen]

theorem roundK_le (t : ℚ) (L : Nat) (h1 : t ≤ 1) : roundK t L ≤ L := by
  unfold roundK
  have hfl : ⌊t * L + 1/2⌋ ≤ L := by
    have hle : t * L + 1/2 ≤ (L : ℚ) + 1/2 := by
      have : t * L ≤ 1 * L := by
        apply mul_le_mul_of_nonneg_right h1
        positivity
      linarith
    have h2 : (⌊t * L + 1/2⌋ : ℚ) ≤ (L : ℚ) + 1/2 := le_trans (Int.floor_le _) hle
    have h3 : (⌊t * L + 1/2⌋ : ℚ) < (L : ℚ) + 1 := by linarith
    exact_mod_cast Int.lt_add_one_iff.mp (by exact_mod_cast h3)
  omega

theorem roundK_bound (t : ℚ) (L : Nat) (h0 : 0 ≤ t) :
    |(roundK t L : ℚ) - t * L| ≤ 1/2 := by
  unfold roundK
  have hx : (0 : ℚ) ≤ t * L + 1/2 := by positivity
  have hfl0 : 0 ≤ ⌊t * L + 1/2⌋ := Int.floor_nonneg.mpr hx
  have hcast : ((⌊t * L + 1/2⌋.toNat : ℕ) : ℚ) = (⌊t * L + 1/2⌋ : ℚ) := by
    exact_mod_cast congrArg (fun z : ℤ => (z : ℚ)) (Int.toNat_of_nonneg hfl0)
  have h1 : (⌊t * L + 1/2⌋ : ℚ) ≤ t * L + 1/2 := Int.floor_le _
  have h2 : t * L + 1/2 - 1 < (⌊t * L + 1/2⌋ : ℚ) := Int.sub_one_lt_floor _
  rw [abs_le, hcast]
  constructor <;> linarith

theorem selectedFraction_hardMask (scores : List ℚ) (t : ℚ) (minLen : Nat)
    (h : ¬(scores.length < minLen ∨ allTied scores = true))
    (ht1 : t ≤ 1) :
    selectedFraction (hardMask scores t minLen) =
      (roundK t scores.length : ℚ) / (scores.length : ℚ) := by
  unfold selectedFraction
  rw [length_hardMask, selectedCount_hardMask scores t minLen h,
    Nat.min_eq_left (roundK_le t scores.length ht1)]

theorem sum_map_const {α : Type} (l : List α) (f : α → ℚ) (c : ℚ)
    (h : ∀ x ∈ l, f x = c) : (l.map f).sum = (l.length : ℚ) * c := by
  induction l with
  | nil => simp
  | cons a rest ih =>
    rw [List.map_cons, List.sum_cons, h a (List.mem_cons_self a rest),
      ih fun x hx => h x (List.mem_cons_of_mem a hx)]
    push_cast [List.length_cons]
    ring

/-- C1 (amended): for every nonempty batch of equal-length score rows on
which no example triggers the Sampler's fallback (no all-tied scores, no
too-short sequence), the batch-averaged fraction of selected positions in
the produced RationaleMasks lies within the rounding tolerance `1/L` of
the configured target sparsity `t ∈ [0,1]`. -/
theorem sampler_batch_sparsity_tolerance (t : ℚ) (minLen L : Nat)
    (scoresList : List (List ℚ))
    (hne : scoresList ≠ [])
    (hlen : ∀ s ∈ scoresList, s.length = L)
    (hfb : ∀ s ∈ scoresList, ¬(s.length < minLen ∨ allTied s = true))
    (hL : 0 < L) (ht0 : 0 ≤ t) (ht1 : t ≤ 1) :
    |batchAvgFraction (scoresList.map fun s => hardMask s t minLen) - t| ≤
      1 / (L : ℚ) := by
  have hc : ∀ s ∈ scoresList,
      selectedFraction (hardMask s t minLen) = (roundK t L : ℚ) / (L : ℚ) := by
    intro s hs
    rw [selectedFraction_hardMask s t minLen (hfb s hs) ht1, hlen s hs]
  have hsum :
      ((scoresList.map fun s => hardMask s t minLen).map selectedFraction).sum =
        (scoresList.length : ℚ) * ((roundK t L : ℚ) / (L : ℚ)) := by
    rw [List.map_map]
    exact sum_map_const scoresList _ _ fun s hs => hc s hs
  have hn : (scoresList.length : ℚ) ≠ 0 := by
    simpa [List.length_eq_zero] using hne
  have hLq : (0 : ℚ) < (L : ℚ) := by exact_mod_cast hL
  unfold batchAvgFraction
  rw [List.length_map, hsum, mul_div_cancel_left₀ _ hn]
  have heq : (roundK t L : ℚ) / (L : ℚ) - t =
      ((roundK t L : ℚ) - t * L) / (L : ℚ) := by
    field_simp
    ring
  rw [heq, abs_div, abs_of_pos hLq]
  have hb : |(roundK t L : ℚ) - t * L| ≤ 1 := le_trans (roundK_bound t L ht0) (by norm_num)
  gcongr

/-- Witness for `sampler_batch_sparsity_tolerance` at the concrete batch
`[[3, 1, 2]]`, target sparsity `2/5`, minimum length `1`. -/
theorem sampler_batch_sparsity_tolerance_witness :
    ([[(3 : ℚ), 1, 2]] ≠ []) ∧
      (∀ s ∈ [[(3 : ℚ), 1, 2]], s.length = 3) ∧
      (∀ s ∈ [[(3 : ℚ), 1, 2]], ¬(s.length < 1 ∨ allTied s = true)) ∧
      (0 < 3) ∧ ((0 : ℚ) ≤ 2/5) ∧ ((2/5 : ℚ) ≤ 1) ∧
      |batchAvgFraction ([[(3 : ℚ), 1, 2]].map fun s => hardMask s (2/5) 1) - 2/5| ≤
        1 / ((3 : Nat) : ℚ) := by
  refine ⟨by simp, ?_, ?_, by norm_num, by norm_num, by norm_num, ?_⟩
  · intro s hs
    simp only [List.mem_singleton] at hs
    subst hs
    rfl
  · intro s hs
    simp only [List.mem_singleton] at hs
    subst hs
    simp [allTied]
  · exact sampler_batch_sparsity_tolerance (2/5) 1 3 [[(3 : ℚ), 1, 2]]
      (by simp)
      (by intro s hs; simp only [List.mem_singleton] at hs; subst hs; rfl)
      (by
        intro s hs
        simp only [List.mem_singleton] at hs
        subst hs
        simp [allTied])
      (by norm_num) (by norm_num) (by norm_num)

/-- C1 counterexample: a batch consisting of one example whose scores all
tie triggers the Sampler's documented fallback (select everything), so the
batch-averaged selected fraction is 1, which is not within the rounding
tolerance `1/L = 1/3` of the target sparsity `2/5`: the claim fails without
excluding the fallback inputs. -/
theorem sampler_batch_sparsity_cex :
    ¬(|batchAvgFraction ([[(1 : ℚ), 1, 1]].map fun s => hardMask s (2/5) 1) - 2/5| ≤
        1 / ((3 : Nat) : ℚ)) := by
  have h : batchAvgFraction ([[(1 : ℚ), 1, 1]].map fun s => hardMask s (2/5) 1) = 1 := by
    norm_num [batchAvgFraction, hardMask, allTied, selectedFraction, selectedCount,
      List.replicate, List.count_cons]
  rw [h]
  rw [abs_le]
  norm_num

/-! ## Full-mask reduction lemmas -/

theorem maskedSum_replicate_true (E : Nat → ℚ) :
    ∀ tokens : List Nat,
      maskedSum E (List.replicate tokens.length true) tokens = plainSum E tokens := by
  intro tokens
  induction tokens with
  | nil => rfl
  | cons t rest ih =>
    simp only [maskedSum, plainSum, List.length_cons, List.replicate_succ,
      List.zip_cons_cons, List.map_cons, List.sum_cons, if_pos] at ih ⊢
    rw [ih]

theorem scorerLogits_replicate_true (E : Nat → ℚ) (s : ScorerParams)
    (tokens : List Nat) :
    scorerLogits E s (List.replicate tokens.length true) tokens =
      plainLogits E s tokens := by
  unfold scorerLogits plainLogits
  rw [maskedSum_replicate_true]

theorem predict_replicate_true (E : Nat → ℚ) (s : ScorerParams) (ex : Example) :
    predict E s (List.replicate ex.tokens.length true) ex = predictPlain E s ex := by
  unfold predict predictPlain
  rw [scorerLogits_replicate_true]

/-- C5: when the RationaleMask selects all positions, the Classifier's
behavior coincides with a plain classifier applied to the full unmasked
input: same logits, same label probability distribution, same prediction. -/
theorem classifier_full_mask_refines_plain (E : Nat → ℚ) (s : ScorerParams)
    (tokens : List Nat) :
    scorerLogits E s (List.replicate tokens.length true) tokens =
        plainLogits E s tokens ∧
      probsOfLogits (scorerLogits E s (List.replicate tokens.length true) tokens) =
        probsOfLogits (plainLogits E s tokens) ∧
      argmaxQ (scorerLogits E s (List.replicate tokens.length true) tokens) =
        argmaxQ (plainLogits E s tokens) := by
  have h := scorerLogits_replicate_true E s tokens
  exact ⟨h, by rw [h], by rw [h]⟩

theorem maskedAccuracy_replicate_true (E : Nat → ℚ) (s : ScorerParams) :
    ∀ b : Batch,
      maskedAccuracy E s (b.map fun ex => List.replicate ex.tokens.length true) b =
        plainAccuracy E s b := by
  have key : ∀ b : Batch,
      ((b.zip (b.map fun ex => List.replicate ex.tokens.length true)).filter
        fun p => decide (predict E s p.2 p.1 = p.1.label)).length =
      (b.filter fun ex => decide (predictPlain E s ex = ex.label)).length := by
    intro b
    induction b with
    | nil => rfl
    | cons ex rest ih =>
      simp only [List.map_cons, List.zip_cons_cons, List.filter_cons,
        predict_replicate_true E s ex]
      by_cases hd : predictPlain E s ex = ex.label
      · simp [hd, ih]
      · simp [hd, ih]
  intro b
  unfold maskedAccuracy plainAccuracy
  rw [key b]

/-- C4 (amended): on a batch whose rationale is forced to be empty, the
anti-accuracy equals the accuracy of the Anti-Classifier itself applied
plainly to the full unmasked input (the complement of the empty mask
selects every position).  It need not equal the Classifier's accuracy,
because the two scorers have independent parameters. -/
theorem anti_accuracy_empty_mask_eq_anti_plain (E : Nat → ℚ)
    (p : ModelParameters) (b : Batch) :
    antiAccuracy E p (emptyMasks b) b = plainAccuracy E p.anti b := by
  unfold antiAccuracy
  have hmap : (emptyMasks b).map complementMask =
      b.map fun ex => List.replicate ex.tokens.length true := by
    simp [emptyMasks, complementMask, List.map_map, Function.comp_def,
      List.map_replicate]
  rw [hmap, maskedAccuracy_replicate_true]

/-- C4 counterexample: with an empty rationale the Anti-Classifier sees
the full input, but its accuracy is computed with its own parameters, not
the Classifier's: on a one-example batch with Classifier weights `[0, 1]`
and Anti-Classifier weights `[1, 0]` the Classifier is right and the
Anti-Classifier wrong, so the two accuracies differ. -/
theorem anti_accuracy_empty_mask_cex :
    antiAccuracy (fun _ => (1 : ℚ))
        ⟨0, 0, ⟨[0, 1]⟩, ⟨[1, 0]⟩⟩
        (emptyMasks [⟨[7], 1⟩]) [⟨[7], 1⟩] ≠
      plainAccuracy (fun _ => (1 : ℚ)) (⟨[0, 1]⟩ : ScorerParams) [⟨[7], 1⟩] := by
  have h1 : antiAccuracy (fun _ => (1 : ℚ))
      ⟨0, 0, ⟨[0, 1]⟩, ⟨[1, 0]⟩⟩
      (emptyMasks [⟨[7], 1⟩]) [⟨[7], 1⟩] = 0 := by
    norm_num [antiAccuracy, maskedAccuracy, emptyMasks, complementMask, predict,
      scorerLogits, maskedSum, argmaxQ, List.replicate]
  have h2 : plainAccuracy (fun _ => (1 : ℚ)) (⟨[0, 1]⟩ : ScorerParams) [⟨[7], 1⟩] = 1 := by
    norm_num [plainAccuracy, predictPlain, plainLogits, plainSum, argmaxQ]
  rw [h1, h2]
  norm_num

/-- C6: when all inclusion scores tie or the sequence length is below the
configured minimum, the Rationale Sampler returns the mask selecting all
positions (rationale = full input) instead of raising an error. -/
theorem sampler_fallback_selects_all (scores : List ℚ) (t : ℚ) (minLen : Nat)
    (h : scores.length < minLen ∨ allTied scores = true) :
    hardMask scores t minLen = List.replicate scores.length true := by
  unfold hardMask
  rw [if_pos (by simpa using h)]

/-- Witness for `sampler_fallback_selects_all`: a two-token sequence below
the minimum length 3. -/
theorem sampler_fallback_selects_all_witness :
    (([(2 : ℚ), 7].length < 3 ∨ allTied [(2 : ℚ), 7] = true)) ∧
      hardMask [(2 : ℚ), 7] (1/2) 3 = List.replicate 2 true := by
  refine ⟨Or.inl (by norm_num), ?_⟩
  exact sampler_fallback_selects_all [(2 : ℚ), 7] (1/2) 3 (Or.inl (by norm_num))

/-- C8: a configuration whose sparsity target lies outside [0,1] or whose
λ loss weights are negative fails validation at construction with a
`ConfigurationError`; the result is an error and never a successfully
constructed configuration. -/
theorem invalid_config_fails_construction (cfg : Config)
    (h : cfg.targetSparsity < 0 ∨ 1 < cfg.targetSparsity ∨
         cfg.lambda1 < 0 ∨ cfg.lambda2 < 0) :
    (∃ e, validateConfig cfg = .error e) ∧ ∀ c, validateConfig cfg ≠ .ok c := by
  unfold validateConfig
  by_cases h1 : cfg.targetSparsity < 0 ∨ 1 < cfg.targetSparsity
  · rw [if_pos h1]
    exact ⟨⟨ConfigError.invalidSparsity, rfl⟩, fun c => by simp⟩
  · rw [if_neg h1]
    have h2 : cfg.lambda1 < 0 ∨ cfg.lambda2 < 0 := by tauto
    rw [if_pos h2]
    exact ⟨⟨ConfigError.invalidLambda, rfl⟩, fun c => by simp⟩

/-- Witness for `invalid_config_fails_construction`: target sparsity 2
lies outside [0,1]. -/
theorem invalid_config_fails_construction_witness :
    (((⟨2, 1, 1, 1/100, 1⟩ : Config).targetSparsity < 0 ∨
        1 < (⟨2, 1, 1, 1/100, 1⟩ : Config).targetSparsity ∨
        (⟨2, 1, 1, 1/100, 1⟩ : Config).lambda1 < 0 ∨
        (⟨2, 1, 1, 1/100, 1⟩ : Config).lambda2 < 0)) ∧
      ((∃ e, validateConfig ⟨2, 1, 1, 1/100, 1⟩ = .error e) ∧
        ∀ c, validateConfig ⟨2, 1, 1, 1/100, 1⟩ ≠ .ok c) := by
  refine ⟨Or.inr (Or.inl (by norm_num)), ?_⟩
  exact invalid_config_fails_construction ⟨2, 1, 1, 1/100, 1⟩
    (Or.inr (Or.inl (by norm_num)))

/-- C9: every operation not performed by the Trainer leaves the
ModelParameters unchanged; only the Trainer's train step writes them. -/
theorem non_trainer_ops_preserve_params (E : Nat → ℚ) (cfg : Config)
    (op : Op) (s : SysState) (h : op.isTrainerOp = false) :
    (applyOp E cfg op s).params = s.params := by
  cases op with
  | train b => simp [Op.isTrainerOp] at h
  | score b => rfl
  | explain tokens => rfl

/-- Witness for `non_trainer_ops_preserve_params`: a concrete scoring pass
leaves the parameters untouched. -/
theorem non_trainer_ops_preserve_params_witness :
    (Op.score [⟨[1, 2], 0⟩]).isTrainerOp = false ∧
      (applyOp (fun t => (t : ℚ)) ⟨2/5, 1, 1, 1/100, 1⟩ (Op.score [⟨[1, 2], 0⟩])
          ⟨⟨1, 0, ⟨[1]⟩, ⟨[1]⟩⟩, ⟨0, 0, 0⟩, 7⟩).params =
        (⟨⟨1, 0, ⟨[1]⟩, ⟨[1]⟩⟩, ⟨0, 0, 0⟩, 7⟩ : SysState).params := by
  exact ⟨rfl, non_trainer_ops_preserve_params (fun t => (t : ℚ)) ⟨2/5, 1, 1, 1/100, 1⟩
    (Op.score [⟨[1, 2], 0⟩]) ⟨⟨1, 0, ⟨[1]⟩, ⟨[1]⟩⟩, ⟨0, 0, 0⟩, 7⟩ rfl⟩

/-- C2: with a fixed random seed, fixed initial parameters and a fixed
input batch, two executions of one training step produce the same loss
value and the same parameter delta. -/
theorem train_step_deterministic (E : Nat → ℚ) (cfg : Config) (seed : Nat)
    (p : ModelParameters) (b : Batch) (r1 r2 : StepResult)
    (h1 : r1 = trainStep E cfg seed p b) (h2 : r2 = trainStep E cfg seed p b) :
    r1.loss = r2.loss ∧ paramDelta p r1.params = paramDelta p r2.params := by
  subst h1
  subst h2
  exact ⟨rfl, rfl⟩

/-- Witness for `train_step_deterministic` at a concrete seed, parameter
set and batch. -/
theorem train_step_deterministic_witness :
    (trainStep (fun t => (t : ℚ)) ⟨2/5, 1, 1, 1/100, 1⟩ 5 ⟨1, 0, ⟨[1]⟩, ⟨[1]⟩⟩
        [⟨[1, 2], 0⟩]).loss =
      (trainStep (fun t => (t : ℚ)) ⟨2/5, 1, 1, 1/100, 1⟩ 5 ⟨1, 0, ⟨[1]⟩, ⟨[1]⟩⟩
        [⟨[1, 2], 0⟩]).loss ∧
    paramDelta ⟨1, 0, ⟨[1]⟩, ⟨[1]⟩⟩
        (trainStep (fun t => (t : ℚ)) ⟨2/5, 1, 1, 1/100, 1⟩ 5 ⟨1, 0, ⟨[1]⟩, ⟨[1]⟩⟩
          [⟨[1, 2], 0⟩]).params =
      paramDelta ⟨1, 0, ⟨[1]⟩, ⟨[1]⟩⟩
        (trainStep (fun t => (t : ℚ)) ⟨2/5, 1, 1, 1/100, 1⟩ 5 ⟨1, 0, ⟨[1]⟩, ⟨[1]⟩⟩
          [⟨[1, 2], 0⟩]).params :=
  train_step_deterministic (fun t => (t : ℚ)) ⟨2/5, 1, 1, 1/100, 1⟩ 5
    ⟨1, 0, ⟨[1]⟩, ⟨[1]⟩⟩ [⟨[1, 2], 0⟩] _ _ rfl rfl

/-- C3: running inference twice on the same input with no parameter update
in between yields an identical RationaleMask and an identical label
probability distribution. -/
theorem inference_idempotent (E : Nat → ℚ) (cfg : Config)
    (p : ModelParameters) (tokens : List Nat) (r1 r2 : InferResult)
    (h1 : r1 = inferLocal E cfg p tokens) (h2 : r2 = inferLocal E cfg p tokens) :
    r1.mask = r2.mask ∧ r1.dist = r2.dist := by
  subst h1
  subst h2
  exact ⟨rfl, rfl⟩

/-- Witness for `inference_idempotent` at a concrete input. -/
theorem inference_idempotent_witness :
    (inferLocal (fun t => (t : ℚ)) ⟨2/5, 1, 1, 1/100, 1⟩ ⟨1, 0, ⟨[1]⟩, ⟨[1]⟩⟩
        [1, 2, 3]).mask =
      (inferLocal (fun t => (t : ℚ)) ⟨2/5, 1, 1, 1/100, 1⟩ ⟨1, 0, ⟨[1]⟩, ⟨[1]⟩⟩
        [1, 2, 3]).mask ∧
    (inferLocal (fun t => (t : ℚ)) ⟨2/5, 1, 1, 1/100, 1⟩ ⟨1, 0, ⟨[1]⟩, ⟨[1]⟩⟩
        [1, 2, 3]).dist =
      (inferLocal (fun t => (t : ℚ)) ⟨2/5, 1, 1, 1/100, 1⟩ ⟨1, 0, ⟨[1]⟩, ⟨[1]⟩⟩
        [1, 2, 3]).dist :=
  inference_idempotent (fun t => (t : ℚ)) ⟨2/5, 1, 1, 1/100, 1⟩
    ⟨1, 0, ⟨[1]⟩, ⟨[1]⟩⟩ [1, 2, 3] _ _ rfl rfl

/-- C7: a NaN/Inf batch loss aborts the current epoch at once with the
fatal `NumericInstabilityError` surfaced to the caller, and the outcome
does not depend on the remaining batches of the epoch: nothing after the
failing batch is attempted and nothing is retried. -/
theorem nan_loss_aborts_epoch (E : Nat → ℚ) (cfg : Config) (seed : Nat)
    (p : ModelParameters) (bad : Batch) (post post' : List Batch)
    (h : (batchLoss E cfg p bad).isFinite = false) :
    runEpoch E cfg seed p (bad :: post) = .error .numericInstability ∧
      runEpoch E cfg seed p (bad :: post) = runEpoch E cfg seed p (bad :: post') := by
  have hcond : (trainStep E cfg seed p bad).loss.isFinite = false := h
  constructor
  · simp [runEpoch, hcond]
  · simp [runEpoch, hcond]

/-- Witness for `nan_loss_aborts_epoch`: a concrete batch whose
probability normalizer vanishes, giving a NaN loss; the epoch aborts and
the remaining batches do not influence the outcome. -/
theorem nan_loss_aborts_epoch_witness :
    ((batchLoss (fun t => (t : ℚ)) ⟨2/5, 1, 1, 1/100, 1⟩ ⟨1, 0, ⟨[-1]⟩, ⟨[1]⟩⟩
        [⟨[1], 0⟩]).isFinite = false) ∧
      (runEpoch (fun t => (t : ℚ)) ⟨2/5, 1, 1, 1/100, 1⟩ 5 ⟨1, 0, ⟨[-1]⟩, ⟨[1]⟩⟩
          ([⟨[1], 0⟩] :: [[⟨[2], 1⟩]]) = .error .numericInstability ∧
        runEpoch (fun t => (t : ℚ)) ⟨2/5, 1, 1, 1/100, 1⟩ 5 ⟨1, 0, ⟨[-1]⟩, ⟨[1]⟩⟩
            ([⟨[1], 0⟩] :: [[⟨[2], 1⟩]]) =
          runEpoch (fun t => (t : ℚ)) ⟨2/5, 1, 1, 1/100, 1⟩ 5 ⟨1, 0, ⟨[-1]⟩, ⟨[1]⟩⟩
            ([⟨[1], 0⟩] :: [])) := by
  have hev : (batchLoss (fun t => (t : ℚ)) ⟨2/5, 1, 1, 1/100, 1⟩
      ⟨1, 0, ⟨[-1]⟩, ⟨[1]⟩⟩ [⟨[1], 0⟩]).isFinite = false := by
    norm_num [batchLoss, exampleJointLoss, generatorScores, hardMask, allTied,
      complementMask, scorerLogits, maskedSum, probsOfLogits, exampleLoss,
      selectedFraction, selectedCount, FVal.add, FVal.scale, FVal.isFinite]
  exact ⟨hev, nan_loss_aborts_epoch (fun t => (t : ℚ)) ⟨2/5, 1, 1, 1/100, 1⟩ 5
    ⟨1, 0, ⟨[-1]⟩, ⟨[1]⟩⟩ [⟨[1], 0⟩] [[⟨[2], 1⟩]] [] hev⟩

end IntrospectiveRationale

/-- C10: with `QUICK_RUN` set to `True`, the notebook's data-loading cell
reads the name `batch_size`, which no cell defines, so execution fails
with a `NameError` before any training occurs; with `QUICK_RUN` set to
`False` the notebook runs to completion and training does occur. -/
theorem quick_run_batch_size_name_error :
    Notebook.runNotebook true = .error ("batch_size", false) ∧
      ∃ env, Notebook.runNotebook false = .ok (env, true) := by
  exact ⟨rfl, ⟨_, rfl⟩⟩
